import Mathlib

/-!
Transparent-proxy utilities (package `Com`, file `Com/utils.go`).

A shallow embedding of the address-recovery, dialing and UDP relay codec
functions of `Com/utils.go`, followed by theorems about them.

Conventions of the embedding.

* A byte is a natural number below 256; byte sequences are lists.
* A Go slice is its visible elements together with the elements of its
  backing array between `len` and `cap` (`Slice`), because a slice
  expression `s[lo:hi]` is checked against `cap(s)` while `s[lo:]` is checked
  against `len(s)`.
* A Go runtime panic is `Except.error` of a `Panic`; a returned `error`
  value is a value of `Err`.
* A `net.Addr` value is its dynamic type `typ` (the thing `reflect.TypeOf`
  compares and `reflect.Value` operates on) and the contents of its `IP` and
  `Port` fields.  The reflective reads are the functions `fieldIP`,
  `fieldPortUint` and `fieldPortInt`, which panic as `reflect` does:
  `FieldByName` on a pointer such as `*net.UDPAddr`, `Uint` on a signed
  field, `Int` on an unsigned one.
* The operating system is an explicit `Kernel` state (the descriptor table)
  and an `Env` that decides which system calls fail; `Env.linux` is the
  environment with the refusals of a Linux kernel that matter here.
-/

namespace Com

/-! ## Go values -/

/-- Go runtime panics that the modelled functions can raise. -/
inductive Panic
  | sliceBounds
  | fieldByNameOnPtr
  | uintOnInt
  | intOnUint
  deriving DecidableEq, Repr

/-- Equality of results is decidable, so that the functions below can be
evaluated inside proofs. -/
instance instDecidableEqExcept {ε α : Type} [DecidableEq ε] [DecidableEq α] :
    DecidableEq (Except ε α)
  | .ok a, .ok b => if h : a = b then isTrue (by rw [h]) else isFalse (fun h2 => h (by cases h2; rfl))
  | .error a, .error b =>
    if h : a = b then isTrue (by rw [h]) else isFalse (fun h2 => h (by cases h2; rfl))
  | .ok _, .error _ => isFalse (fun h => by cases h)
  | .error _, .ok _ => isFalse (fun h => by cases h)

/-- A Go byte slice: `elems` are the `len` visible bytes, `spare` the bytes of
the backing array between `len` and `cap`. -/
structure Slice where
  elems : List Nat
  spare : List Nat
  deriving DecidableEq, Repr

/-- The Go builtin `len(s)`. -/
def Slice.len (s : Slice) : Nat := s.elems.length

/-- The Go builtin `cap(s)`. -/
def Slice.cap (s : Slice) : Nat := s.elems.length + s.spare.length

/-- The slice expression `s[lo:hi]`: in range when `lo <= hi <= cap(s)`. -/
def Slice.slice (s : Slice) (lo hi : Nat) : Except Panic Slice :=
  if lo ≤ hi ∧ hi ≤ s.cap then
    .ok ⟨((s.elems ++ s.spare).drop lo).take (hi - lo), (s.elems ++ s.spare).drop hi⟩
  else .error .sliceBounds

/-- The slice expression `s[lo:]`: in range when `lo <= len(s)`. -/
def Slice.sliceFrom (s : Slice) (lo : Nat) : Except Panic Slice :=
  if lo ≤ s.len then .ok ⟨s.elems.drop lo, s.spare⟩ else .error .sliceBounds

/-- A slice whose capacity equals its length. -/
def Slice.ofList (l : List Nat) : Slice := ⟨l, []⟩

/-- The function `binary.BigEndian.Uint16`: panics on fewer than two bytes. -/
def BigEndianUint16 (b : List Nat) : Except Panic Nat :=
  match b with
  | b0 :: b1 :: _ => .ok (b0 * 256 + b1)
  | _ => .error .sliceBounds

/-- The function `binary.BigEndian.PutUint16` on a fresh two-byte slice. -/
def BigEndianPutUint16 (v : Nat) : List Nat := [v / 256 % 256, v % 256]

/-! ## `net.IP` -/

/-- The function `net.IP.To4`: a 4-byte address is returned as is, a 16-byte
IPv4-mapped address (`::ffff:a.b.c.d`) yields its last four bytes, anything
else is `nil`. -/
def To4 (ip : List Nat) : Option (List Nat) :=
  if ip.length = 4 then some ip
  else if ip.length = 16 ∧ (ip.take 10).all (· == 0) ∧ ip.getD 10 0 = 255 ∧ ip.getD 11 0 = 255 then
    some ((ip.drop 12).take 4)
  else none

/-- The function `net.IP.To16`: a 4-byte address is mapped into
`::ffff:a.b.c.d`, a 16-byte address is returned as is, anything else is
`nil`. -/
def To16 (ip : List Nat) : Option (List Nat) :=
  if ip.length = 4 then some ([0, 0, 0, 0, 0, 0, 0, 0, 0, 0, 255, 255] ++ ip)
  else if ip.length = 16 then some ip
  else none

/-- Dynamic type of a `net.Addr` value, as compared by `reflect.TypeOf`:

* `PtrUDPAddr`, `PtrTCPAddr`: the pointer types `*net.UDPAddr` and
  `*net.TCPAddr`, the address values of the standard library;
* `PtrOther id`: any other pointer type;
* `ValueInt id`: a struct type used as a value whose underlying type is that
  of `net.UDPAddr` and `net.TCPAddr` (fields `IP net.IP`, `Port int`,
  `Zone string`), hence convertible to both;
* `ValueUint id`: a struct type used as a value with a byte-slice field `IP`
  and a field `Port` of an unsigned integer type, hence convertible to
  neither. -/
inductive AddrType
  | PtrUDPAddr
  | PtrTCPAddr
  | PtrOther (id : Nat)
  | ValueInt (id : Nat)
  | ValueUint (id : Nat)
  deriving DecidableEq, Repr

/-- A `net.Addr` value: its dynamic type and the contents of the `IP` and
`Port` fields of the struct it is or points to. -/
structure Addr where
  typ : AddrType
  IP : List Nat
  Port : Nat
  deriving DecidableEq, Repr

/-- The read `reflect.ValueOf(addr).FieldByName("IP").Bytes()`: `FieldByName`
panics unless the value is a struct. -/
def fieldIP (addr : Addr) : Except Panic (List Nat) :=
  match addr.typ with
  | .ValueInt _ => .ok addr.IP
  | .ValueUint _ => .ok addr.IP
  | _ => .error .fieldByNameOnPtr

/-- The read `reflect.ValueOf(addr).FieldByName("Port").Uint()`: `FieldByName`
panics unless the value is a struct, `Uint` unless the field is unsigned. -/
def fieldPortUint (addr : Addr) : Except Panic Nat :=
  match addr.typ with
  | .ValueUint _ => .ok addr.Port
  | .ValueInt _ => .error .uintOnInt
  | _ => .error .fieldByNameOnPtr

/-- The read `reflect.ValueOf(addr).FieldByName("Port").Int()`: `FieldByName`
panics unless the value is a struct, `Int` unless the field is signed. -/
def fieldPortInt (addr : Addr) : Except Panic Nat :=
  match addr.typ with
  | .ValueInt _ => .ok addr.Port
  | .ValueUint _ => .error .intOnUint
  | _ => .error .fieldByNameOnPtr

/-- The test `reflect.TypeOf(addr).ConvertibleTo(reflect.TypeOf(net.UDPAddr{}))`,
which has the same answer for `net.TCPAddr{}`: the two struct types have the
same underlying type, and no pointer type converts to a struct type. -/
def convertibleToAddr (t : AddrType) : Bool :=
  match t with
  | .ValueInt _ => true
  | _ => false

/-! ## UDP relay codec -/

/-- The struct `DataPackage`. -/
structure DataPackage where
  Addr : Addr
  Data : List Nat
  deriving DecidableEq, Repr

/-- The function `MarshalPackage`.  The two reflective reads come first and
may panic; `none` is the `nil` slice returned for every protocol other than
`"udp"`. -/
def MarshalPackage (pkg : DataPackage) (proto : String) : Except Panic (Option (List Nat)) :=
  match fieldIP pkg.Addr with
  | .error e => .error e
  | .ok ip =>
    match fieldPortUint pkg.Addr with
    | .error e => .error e
    | .ok port16 =>
      let data := pkg.Data
      if proto = "tcp" then .ok none
      else if proto = "udp" then
        let buf : List Nat :=
          match To4 ip with
          | some ip4 => [0, 0, 0, 1] ++ ip4
          | none =>
            match To16 ip with
            | some ip16 => [0, 0, 0, 1] ++ ip16
            | none => [0, 0, 0, 3] ++ ip
        .ok (some (buf ++ BigEndianPutUint16 (port16 % 65536) ++ data))
      else .ok none

/-- The function `UnMarshalPackage`: a fixed-offset parse with no length
check of its own, so every failure is a slice-bounds panic.  The address it
returns is a `*net.UDPAddr`. -/
def UnMarshalPackage (msg : Slice) : Except Panic DataPackage := do
  let addr ← msg.slice 4 8
  let portBytes ← msg.slice 8 10
  let port ← BigEndianUint16 portBytes.elems
  let data ← msg.sliceFrom 10
  pure { Addr := { typ := .PtrUDPAddr, IP := addr.elems, Port := port }, Data := data.elems }

/-! ## Ancillary (control message) data -/

/-- Returned `error` values: the `errors.New` values of `Com/utils.go` and the
`syscall.Errno` values handed back by system calls. -/
inductive Err
  | parseBufNil
  | originNotFound
  | dialMismatch
  | localIpIncorrect
  | sockTypeMismatch
  | addrTypeMismatch
  | ipNotV4V6
  | newFileNil
  | errno (e : Nat)
  deriving DecidableEq, Repr

/-! Constants of package `syscall` on Linux. -/

def EBADF : Nat := 9
def EINVAL : Nat := 22
def ENOPROTOOPT : Nat := 92
def EAFNOSUPPORT : Nat := 97

def AF_INET : Nat := 2
def AF_INET6 : Nat := 10
def SOCK_STREAM : Nat := 1
def SOCK_DGRAM : Nat := 2
def SOL_SOCKET : Nat := 1
def SO_REUSEADDR : Nat := 2
def SO_TYPE : Nat := 3
def SOL_IP : Nat := 0
def SOL_IPV6 : Nat := 41
def IP_TRANSPARENT : Nat := 19
def IP_RECVORIGDSTADDR : Nat := 20

/-- The struct `syscall.Cmsghdr` on linux/amd64 (`Typ` is its field `Type`). -/
structure Cmsghdr where
  Len : Nat
  Level : Int
  Typ : Int
  deriving DecidableEq, Repr

/-- The struct `syscall.SocketControlMessage`. -/
structure SocketControlMessage where
  Header : Cmsghdr
  Data : Slice
  deriving DecidableEq, Repr

/-- Little-endian unsigned value of a byte sequence. -/
def leUint (bs : List Nat) : Nat := bs.foldr (fun b acc => b + 256 * acc) 0

/-- Reinterpretation of an unsigned 32-bit pattern as `int32`. -/
def toInt32 (n : Nat) : Int := if n < 2 ^ 31 then (n : Int) else (n : Int) - 2 ^ 32

def SizeofCmsghdr : Nat := 16

/-- The function `syscall.cmsgAlignOf`: round up to the pointer size, 8. -/
def cmsgAlignOf (salen : Nat) : Nat := (salen + 8 - 1) / 8 * 8

/-- The function `syscall.CmsgLen`. -/
def CmsgLen (datalen : Nat) : Nat := cmsgAlignOf SizeofCmsghdr + datalen

/-- The function `syscall.socketControlMessageHeaderAndData` applied to
`b[i:]`: reads the header in place and returns it with `b[i:][16:h.Len]`. -/
def socketControlMessageHeaderAndData (b : Slice) (i : Nat) :
    Except Err (Cmsghdr × Slice) :=
  let bi := b.elems.drop i
  let h : Cmsghdr :=
    { Len := leUint (bi.take 8)
      Level := toInt32 (leUint ((bi.drop 8).take 4))
      Typ := toInt32 (leUint ((bi.drop 12).take 4)) }
  if h.Len < SizeofCmsghdr ∨ h.Len > bi.length then .error (.errno EINVAL)
  else .ok (h, ⟨(bi.drop (cmsgAlignOf SizeofCmsghdr)).take (h.Len - cmsgAlignOf SizeofCmsghdr),
                bi.drop h.Len ++ b.spare⟩)

/-- The loop of `syscall.ParseSocketControlMessage`, from offset `i` with the
messages collected so far; `fuel` bounds the number of iterations. -/
def parseLoop (b : Slice) : Nat → Nat → List SocketControlMessage →
    Except Err (List SocketControlMessage)
  | 0, _, msgs => .ok msgs
  | fuel + 1, i, msgs =>
    if i + CmsgLen 0 ≤ b.len then
      match socketControlMessageHeaderAndData b i with
      | .error e => .error e
      | .ok (h, dbuf) => parseLoop b fuel (i + cmsgAlignOf h.Len) (msgs ++ [⟨h, dbuf⟩])
    else .ok msgs

/-- The function `syscall.ParseSocketControlMessage` on linux/amd64.  Every
iteration advances by at least 16 bytes, so `len(b) + 1` iterations suffice
(`parseLoop_fuel`). -/
def ParseSocketControlMessage (b : Slice) : Except Err (List SocketControlMessage) :=
  parseLoop b (b.len + 1) 0 []

/-- The struct `BaseAddr`. -/
structure BaseAddr where
  IP : List Nat
  Port : Nat
  deriving DecidableEq, Repr

/-- Whether the header selects the first branch of the scan (`SOL_IP`). -/
def isOrigDst4 (msg : SocketControlMessage) : Bool :=
  msg.Header.Level == (SOL_IP : Int) && msg.Header.Typ == (IP_RECVORIGDSTADDR : Int)

/-- Whether the header selects the second branch of the scan (`SOL_IPV6`). -/
def isOrigDst6 (msg : SocketControlMessage) : Bool :=
  msg.Header.Level == (SOL_IPV6 : Int) && msg.Header.Typ == (IP_RECVORIGDSTADDR : Int)

/-- The `for _, msg := range msgSl` loop of `ParseRemoteAddrFromMsgHdr`, with
`addr` the value of the variable `addr` so far (`none` is `nil`). -/
def scanMsgs : List SocketControlMessage → Option BaseAddr → Except Panic (Option BaseAddr)
  | [], addr => .ok addr
  | msg :: rest, addr =>
    if isOrigDst4 msg then do
      let ip ← msg.Data.slice 4 8
      let pb ← msg.Data.slice 2 4
      let port ← BigEndianUint16 pb.elems
      scanMsgs rest (some ⟨ip.elems, port⟩)
    else if isOrigDst6 msg then do
      let ip ← msg.Data.slice 8 24
      let pb ← msg.Data.slice 2 4
      let port ← BigEndianUint16 pb.elems
      scanMsgs rest (some ⟨ip.elems, port⟩)
    else scanMsgs rest addr

/-- The function `ParseRemoteAddrFromMsgHdr`; `buf = none` is the `nil`
buffer.  The result is the returned pair `(addr, err)`. -/
def ParseRemoteAddrFromMsgHdr (buf : Option Slice) :
    Except Panic (Option BaseAddr × Option Err) :=
  match buf with
  | none => .ok (none, some .parseBufNil)
  | some b =>
    match ParseSocketControlMessage b with
    | .error e => .ok (none, some e)
    | .ok msgSl => do
      let addr ← scanMsgs msgSl none
      if addr = none then pure (addr, some .originNotFound) else pure (addr, none)

/-! ## Sockets -/

/-- The address types `syscall.SockaddrInet4` and `syscall.SockaddrInet6`. -/
inductive Sockaddr
  | Inet4 (Port : Nat) (Addr : List Nat)
  | Inet6 (Port : Nat) (Addr : List Nat)
  deriving DecidableEq, Repr

/-- The Go builtin `copy` into a zeroed array of `n` bytes. -/
def copyInto (n : Nat) (src : List Nat) : List Nat :=
  src.take n ++ List.replicate (n - src.length) 0

/-- One socket of the kernel: creation parameters, the integer options set on
it keyed by `(level, name)`, and its bound and connected addresses. -/
structure Socket where
  domain : Nat
  typ : Nat
  opts : List ((Nat × Nat) × Nat)
  bound : Option Sockaddr
  peer : Option Sockaddr
  deriving DecidableEq, Repr

/-- The descriptor table: the open descriptors and their sockets. -/
structure Kernel where
  fds : List (Nat × Socket)
  deriving DecidableEq, Repr

/-- The set of open descriptors. -/
def Kernel.openFds (k : Kernel) : List Nat := k.fds.map Prod.fst

/-- The socket behind a descriptor. -/
def Kernel.lookup (k : Kernel) (fd : Nat) : Option Socket :=
  (k.fds.find? (fun e => e.1 == fd)).map Prod.snd

/-- Replace the socket behind a descriptor. -/
def Kernel.update (k : Kernel) (fd : Nat) (s : Socket) : Kernel :=
  ⟨k.fds.map (fun e => if e.1 = fd then (fd, s) else e)⟩

/-- The lowest descriptor number not in use, which is what the kernel hands
out next. -/
def Kernel.newFd (k : Kernel) : Nat :=
  ((List.range (k.fds.length + 1)).find? (fun n => decide (n ∉ k.openFds))).getD 0

/-- The value of an integer option of a socket; an option never set reads 0. -/
def Socket.opt (s : Socket) (level name : Nat) : Nat :=
  ((s.opts.find? (fun e => e.1 == (level, name))).map Prod.snd).getD 0

/-- The failures of the environment: for every system call, the `errno` it
fails with in a given state, or `none` when it goes through. -/
structure Env where
  socketErr : Kernel → Nat → Nat → Nat → Option Nat
  getsockoptErr : Kernel → Nat → Nat → Nat → Option Nat
  setsockoptErr : Kernel → Nat → Nat → Nat → Nat → Option Nat
  bindErr : Kernel → Nat → Sockaddr → Option Nat
  connectErr : Kernel → Nat → Sockaddr → Option Nat
  fileConnErr : Kernel → Nat → Option Nat

/-- The call `syscall.Socket(domain, typ, proto)`. -/
def sysSocket (env : Env) (k : Kernel) (domain typ proto : Nat) : Except Nat (Nat × Kernel) :=
  match env.socketErr k domain typ proto with
  | some e => .error e
  | none => .ok (k.newFd, ⟨k.fds ++ [(k.newFd, ⟨domain, typ, [], none, none⟩)]⟩)

/-- The call `syscall.GetsockoptInt(fd, level, opt)`. -/
def sysGetsockoptInt (env : Env) (k : Kernel) (fd level opt : Nat) : Except Nat Nat :=
  match k.lookup fd with
  | none => .error EBADF
  | some s =>
    match env.getsockoptErr k fd level opt with
    | some e => .error e
    | none => .ok (if level = SOL_SOCKET ∧ opt = SO_TYPE then s.typ else s.opt level opt)

/-- The call `syscall.SetsockoptInt(fd, level, opt, value)`. -/
def sysSetsockoptInt (env : Env) (k : Kernel) (fd level opt value : Nat) : Except Nat Kernel :=
  match k.lookup fd with
  | none => .error EBADF
  | some s =>
    match env.setsockoptErr k fd level opt value with
    | some e => .error e
    | none => .ok (k.update fd { s with opts := ((level, opt), value) :: s.opts })

/-- The call `syscall.Bind(fd, sa)`. -/
def sysBind (env : Env) (k : Kernel) (fd : Nat) (sa : Sockaddr) : Except Nat Kernel :=
  match k.lookup fd with
  | none => .error EBADF
  | some s =>
    match env.bindErr k fd sa with
    | some e => .error e
    | none => .ok (k.update fd { s with bound := some sa })

/-- The call `syscall.Connect(fd, sa)`. -/
def sysConnect (env : Env) (k : Kernel) (fd : Nat) (sa : Sockaddr) : Except Nat Kernel :=
  match k.lookup fd with
  | none => .error EBADF
  | some s =>
    match env.connectErr k fd sa with
    | some e => .error e
    | none => .ok (k.update fd { s with peer := some sa })

/-- The call `net.FileConn(os.NewFile(fd, name))`: the connection owns a
duplicate of the descriptor; the result is that duplicate. -/
def FileConn (env : Env) (k : Kernel) (fd : Nat) : Except Nat (Nat × Kernel) :=
  match k.lookup fd with
  | none => .error EBADF
  | some s =>
    match env.fileConnErr k fd with
    | some e => .error e
    | none => .ok (k.newFd, ⟨k.fds ++ [(k.newFd, s)]⟩)

/-- The function `SetSockOptTrn`: the returned error (`none` is `nil`) and the
kernel state it leaves. -/
def SetSockOptTrn (env : Env) (k : Kernel) (fd : Nat) : Option Err × Kernel :=
  match sysGetsockoptInt env k fd SOL_SOCKET SO_TYPE with
  | .error e => (some (.errno e), k)
  | .ok soTyp =>
    if soTyp ≠ SOCK_STREAM ∧ soTyp ≠ SOCK_DGRAM then (some .sockTypeMismatch, k)
    else
      match sysSetsockoptInt env k fd SOL_SOCKET SO_REUSEADDR 1 with
      | .error e => (some (.errno e), k)
      | .ok k1 =>
        match sysSetsockoptInt env k1 fd SOL_SOCKET IP_TRANSPARENT 1 with
        | .error e => (some (.errno e), k1)
        | .ok k2 => (none, k2)

/-- The function `convertAddrToSockAddr`: the guard on the type, the two
reflective reads, then the conversion. -/
def convertAddrToSockAddr (addr : Addr) : Except Panic (Except Err Sockaddr) :=
  if convertibleToAddr addr.typ = false then .ok (.error .addrTypeMismatch)
  else
    match fieldIP addr with
    | .error e => .error e
    | .ok ip =>
      match fieldPortInt addr with
      | .error e => .error e
      | .ok port0 =>
        let port := if port0 = 0 then 80 else port0
        match To4 ip with
        | some ip4 => .ok (.ok (.Inet4 port (copyInto 4 ip4)))
        | none =>
          match To16 ip with
          | some ip16 => .ok (.ok (.Inet6 port (copyInto 16 ip16)))
          | none => .ok (.error .ipNotV4V6)

/-- The address family chosen by `MegaDial` from the local address; `none`
is the "local ip is incorrect" exit. -/
def dialDomain (ip : List Nat) : Option Nat :=
  if (To4 ip).isSome then some AF_INET
  else if (To16 ip).isSome then some AF_INET6
  else none

/-- The socket type chosen by `MegaDial`; any other network string leaves the
zero value. -/
def dialTyp (network : String) : Nat :=
  if network = "tcp" then SOCK_STREAM
  else if network = "udp" then SOCK_DGRAM
  else 0

/-- The function `MegaDial`: a panic, or the returned connection (the
descriptor it owns) or error together with the kernel state left behind.  No
exit path closes a descriptor.  The exit "create new file is nil" is not
reachable, because `os.NewFile` returns `nil` only for a negative descriptor
and a successful `syscall.Socket` returns none; `os.NewFile` and
`net.FileConn` are the one step `FileConn`. -/
def MegaDial (env : Env) (k : Kernel) (network : String) (lAddr rAddr : Addr) :
    Except Panic (Except Err Nat × Kernel) :=
  if lAddr.typ ≠ rAddr.typ then .ok (.error .dialMismatch, k)
  else
    match fieldIP lAddr with
    | .error p => .error p
    | .ok ip =>
      match dialDomain ip with
      | none => .ok (.error .localIpIncorrect, k)
      | some domain =>
        match sysSocket env k domain (dialTyp network) 0 with
        | .error e => .ok (.error (.errno e), k)
        | .ok (fd, k1) =>
          match SetSockOptTrn env k1 fd with
          | (some err, k2) => .ok (.error err, k2)
          | (none, k2) =>
            match convertAddrToSockAddr lAddr with
            | .error p => .error p
            | .ok (.error err) => .ok (.error err, k2)
            | .ok (.ok lSockAddr) =>
              match convertAddrToSockAddr rAddr with
              | .error p => .error p
              | .ok (.error err) => .ok (.error err, k2)
              | .ok (.ok rSockAddr) =>
                match sysBind env k2 fd lSockAddr with
                | .error e => .ok (.error (.errno e), k2)
                | .ok k3 =>
                  match sysConnect env k3 fd rSockAddr with
                  | .error e => .ok (.error (.errno e), k3)
                  | .ok k4 =>
                    match FileConn env k4 fd with
                    | .error e => .ok (.error (.errno e), k4)
                    | .ok (conn, k5) => .ok (.ok conn, k5)

/-- The environment of a Linux kernel, as far as these functions can tell:
`setsockopt` at level `SOL_SOCKET` refuses option 19, which at that level is
`SO_SNDLOWAT`, with `ENOPROTOOPT`; `bind` and `connect` refuse, with
`EAFNOSUPPORT`, an address whose family is not the domain of the socket;
nothing else fails. -/
def Env.linux : Env where
  socketErr := fun _ _ _ _ => none
  getsockoptErr := fun _ _ _ _ => none
  setsockoptErr := fun _ _ level opt _ =>
    if level = SOL_SOCKET ∧ opt = 19 then some ENOPROTOOPT else none
  bindErr := fun k fd sa =>
    match k.lookup fd, sa with
    | some s, .Inet4 _ _ => if s.domain = AF_INET then none else some EAFNOSUPPORT
    | some s, .Inet6 _ _ => if s.domain = AF_INET6 then none else some EAFNOSUPPORT
    | none, _ => some EBADF
  connectErr := fun k fd sa =>
    match k.lookup fd, sa with
    | some s, .Inet4 _ _ => if s.domain = AF_INET then none else some EAFNOSUPPORT
    | some s, .Inet6 _ _ => if s.domain = AF_INET6 then none else some EAFNOSUPPORT
    | none, _ => some EBADF
  fileConnErr := fun _ _ => none

/-- The sample ancillary buffer with one `SOL_IP` / `IP_RECVORIGDSTADDR`
record carrying the `sockaddr_in` of 203.0.113.9:443. -/
def sampleRecord : List Nat :=
  [32, 0, 0, 0, 0, 0, 0, 0,  0, 0, 0, 0,  20, 0, 0, 0,
   2, 0, 1, 187, 203, 0, 113, 9, 0, 0, 0, 0, 0, 0, 0, 0]

/-- A `SOL_IP` / `IP_RECVORIGDSTADDR` record with only three bytes of data. -/
def shortRecord : List Nat :=
  [19, 0, 0, 0, 0, 0, 0, 0,  0, 0, 0, 0,  20, 0, 0, 0,  2, 0, 1]

/-- The endpoint that the claim reads off a matching record: for a `SOL_IP`
record the address is data bytes 4..8, for a `SOL_IPV6` record data bytes
8..24; the port is the big-endian value of data bytes 2..4. -/
def origDstOf (m : SocketControlMessage) : BaseAddr :=
  if isOrigDst4 m then
    ⟨(m.Data.elems.drop 4).take 4, m.Data.elems.getD 2 0 * 256 + m.Data.elems.getD 3 0⟩
  else
    ⟨(m.Data.elems.drop 8).take 16, m.Data.elems.getD 2 0 * 256 + m.Data.elems.getD 3 0⟩

/-- Whether the header of a record selects one of the two branches. -/
def isOrigDst (m : SocketControlMessage) : Bool := isOrigDst4 m || isOrigDst6 m

/-- A record of level `SOL_SOCKET` and type 29 (a timestamp), which matches
neither branch of the scan. -/
def otherRecord : List Nat :=
  [32, 0, 0, 0, 0, 0, 0, 0,  1, 0, 0, 0,  29, 0, 0, 0,
   1, 2, 3, 4, 5, 6, 7, 8, 9, 10, 11, 12, 13, 14, 15, 16]

/-- A second `SOL_IP` / `IP_RECVORIGDSTADDR` record, for 198.51.100.7:53. -/
def secondRecord : List Nat :=
  [32, 0, 0, 0, 0, 0, 0, 0,  0, 0, 0, 0,  20, 0, 0, 0,
   2, 0, 0, 53, 198, 51, 100, 7, 0, 0, 0, 0, 0, 0, 0, 0]

/-! ## Auxiliary lemmas on slices and decoding -/

/-- A slice expression with `hi <= len(s)` is in range and selects `elems[lo:hi]`. -/
theorem slice_ok (s : Slice) (lo hi : Nat) (h1 : lo ≤ hi) (h2 : hi ≤ s.len) :
    s.slice lo hi = .ok ⟨(s.elems.drop lo).take (hi - lo), s.elems.drop hi ++ s.spare⟩ := by
  unfold Slice.len at h2
  have hc : hi ≤ s.cap := by unfold Slice.cap; omega
  have hlo : lo ≤ s.elems.length := by omega
  simp only [Slice.slice, h1, hc, and_self, if_true]
  rw [List.drop_append_of_le_length hlo, List.drop_append_of_le_length h2,
    List.take_append_of_le_length (by rw [List.length_drop]; omega)]

/-- Decoding the big-endian port at bytes 2..4 of a sequence of at least 4 bytes. -/
theorem uint16_ok (l : List Nat) (h : 4 ≤ l.length) :
    BigEndianUint16 ((l.drop 2).take 2) = .ok (l.getD 2 0 * 256 + l.getD 3 0) := by
  match l, h with
  | _ :: _ :: b2 :: b3 :: _, _ => simp [BigEndianUint16]

/-- On 10 bytes or more `UnMarshalPackage` returns the fixed-offset fields. -/
theorem UnMarshalPackage_ok (msg : Slice) (h : 10 ≤ msg.len) :
    UnMarshalPackage msg = .ok ⟨⟨.PtrUDPAddr, (msg.elems.drop 4).take 4,
      msg.elems.getD 8 0 * 256 + msg.elems.getD 9 0⟩, msg.elems.drop 10⟩ := by
  have h8 : msg.slice 4 8 = _ := slice_ok msg 4 8 (by omega) (by omega)
  have h10 : msg.slice 8 10 = _ := slice_ok msg 8 10 (by omega) (by omega)
  have hp : BigEndianUint16 ((msg.elems.drop 8).take 2)
      = .ok (msg.elems.getD 8 0 * 256 + msg.elems.getD 9 0) := by
    unfold Slice.len at h
    match hm : msg.elems, h with
    | _ :: _ :: _ :: _ :: _ :: _ :: _ :: _ :: b8 :: b9 :: _, _ => simp [BigEndianUint16]
  simp only [UnMarshalPackage, h8, h10, Slice.sliceFrom, h, if_true, bind, Except.bind, pure,
    Except.pure]
  simp only [Nat.reduceSub, hp]

/-- A slice expression that is out of range panics with the slice-bounds error. -/
theorem slice_error (s : Slice) (lo hi : Nat) (e : Panic) (h : s.slice lo hi = .error e) :
    e = .sliceBounds := by
  unfold Slice.slice at h
  split at h
  · cases h
  · cases h; rfl

/-- The only panic of `binary.BigEndian.Uint16` is the bounds error. -/
theorem uint16_error (b : List Nat) (e : Panic) (h : BigEndianUint16 b = .error e) :
    e = .sliceBounds := by
  unfold BigEndianUint16 at h
  split at h
  · cases h
  · cases h; rfl

/-- On fewer than 10 bytes `UnMarshalPackage` panics. -/
theorem UnMarshalPackage_short (msg : Slice) (h : msg.len < 10) :
    UnMarshalPackage msg = .error .sliceBounds := by
  have hn : ¬ (10 ≤ msg.len) := by omega
  simp only [UnMarshalPackage, Slice.sliceFrom, hn, if_false, bind, Except.bind]
  cases h1 : msg.slice 4 8 with
  | error e => rw [slice_error _ _ _ _ h1]
  | ok a =>
    cases h2 : msg.slice 8 10 with
    | error e => rw [slice_error _ _ _ _ h2]
    | ok b =>
      dsimp only
      cases h3 : BigEndianUint16 b.elems with
      | error e => rw [uint16_error _ _ h3]
      | ok c => rfl

/-! ## Auxiliary lemmas on control messages -/

/-- The aligned length is at least the length. -/
theorem cmsgAlignOf_ge (n : Nat) : n ≤ cmsgAlignOf n := by
  unfold cmsgAlignOf; omega

/-- A header that is accepted announces at least the 16 bytes of the header itself. -/
theorem headerAndData_len (b : Slice) (i : Nat) (h : Cmsghdr) (d : Slice)
    (hh : socketControlMessageHeaderAndData b i = .ok (h, d)) : 16 ≤ h.Len := by
  unfold socketControlMessageHeaderAndData at hh
  simp only [SizeofCmsghdr] at hh
  split at hh
  · cases hh
  · rename_i hc
    simp only [Except.ok.injEq, Prod.mk.injEq] at hh
    obtain ⟨rfl, _⟩ := hh
    dsimp only at hc ⊢
    omega

/-- The iteration bound of `ParseSocketControlMessage` is never the reason the
loop stops: any two bounds of at least `len(b) + 1 - i` give the same result. -/
theorem parseLoop_fuel (b : Slice) (f1 f2 i : Nat) (msgs : List SocketControlMessage)
    (h1 : b.len + 1 ≤ f1 + i) (h2 : b.len + 1 ≤ f2 + i) :
    parseLoop b f1 i msgs = parseLoop b f2 i msgs := by
  induction f1 generalizing f2 i msgs with
  | zero =>
    cases f2 with
    | zero => rfl
    | succ f2 =>
      have : ¬ (i + CmsgLen 0 ≤ b.len) := by omega
      simp [parseLoop, this]
  | succ f1 ih =>
    cases f2 with
    | zero =>
      have : ¬ (i + CmsgLen 0 ≤ b.len) := by omega
      simp [parseLoop, this]
    | succ f2 =>
      unfold parseLoop
      split
      · cases hh : socketControlMessageHeaderAndData b i with
        | error e => rfl
        | ok hd =>
          obtain ⟨h, d⟩ := hd
          have hl := headerAndData_len b i h d hh
          have ha := cmsgAlignOf_ge h.Len
          exact ih f2 _ _ (by omega) (by omega)
      · rfl

/-- One step of the scan on a `SOL_IP` record with at least 8 bytes of data. -/
theorem scan_step4 (m : SocketControlMessage) (rest : List SocketControlMessage)
    (addr : Option BaseAddr) (h4 : isOrigDst4 m = true) (hl : 8 ≤ m.Data.len) :
    scanMsgs (m :: rest) addr = scanMsgs rest (some (origDstOf m)) := by
  have hs := slice_ok m.Data 4 8 (by omega) hl
  have hp := slice_ok m.Data 2 4 (by omega) (by omega)
  have hu := uint16_ok m.Data.elems (by unfold Slice.len at hl; omega)
  simp only [scanMsgs, h4, if_true, hs, hp, bind, Except.bind, origDstOf]
  simp only [Nat.reduceSub, hu]

/-- One step of the scan on a `SOL_IPV6` record with at least 24 bytes of data. -/
theorem scan_step6 (m : SocketControlMessage) (rest : List SocketControlMessage)
    (addr : Option BaseAddr) (h4 : isOrigDst4 m = false) (h6 : isOrigDst6 m = true)
    (hl : 24 ≤ m.Data.len) :
    scanMsgs (m :: rest) addr = scanMsgs rest (some (origDstOf m)) := by
  have hs := slice_ok m.Data 8 24 (by omega) hl
  have hp := slice_ok m.Data 2 4 (by omega) (by omega)
  have hu := uint16_ok m.Data.elems (by unfold Slice.len at hl; omega)
  simp only [scanMsgs, h4, h6, if_true, hs, hp, bind, Except.bind, origDstOf]
  simp only [Nat.reduceSub, hu, Bool.false_eq_true, if_false]

/-- One step of the scan on a record that matches neither branch. -/
theorem scan_skip (m : SocketControlMessage) (rest : List SocketControlMessage)
    (addr : Option BaseAddr) (h4 : isOrigDst4 m = false) (h6 : isOrigDst6 m = false) :
    scanMsgs (m :: rest) addr = scanMsgs rest addr := by
  simp [scanMsgs, h4, h6]

/-- The scan, on records whose matching members carry enough data, returns the
endpoint of the last matching record, or the initial value when none matches. -/
theorem scanMsgs_last (msgs : List SocketControlMessage) (addr : Option BaseAddr)
    (hlong : ∀ m ∈ msgs, (isOrigDst4 m = true → 8 ≤ m.Data.len) ∧
      (isOrigDst6 m = true → 24 ≤ m.Data.len)) :
    scanMsgs msgs addr = .ok (match (msgs.filter isOrigDst).getLast? with
      | some m => some (origDstOf m)
      | none => addr) := by
  induction msgs generalizing addr with
  | nil => simp [scanMsgs]
  | cons m rest ih =>
    have hrest : ∀ x ∈ rest, (isOrigDst4 x = true → 8 ≤ x.Data.len) ∧
        (isOrigDst6 x = true → 24 ≤ x.Data.len) :=
      fun x hx => hlong x (List.mem_cons_of_mem _ hx)
    have hm := hlong m (List.mem_cons_self _ _)
    cases h4 : isOrigDst4 m with
    | true =>
      rw [scan_step4 m rest addr h4 (hm.1 h4), ih _ hrest]
      have hf : isOrigDst m = true := by simp [isOrigDst, h4]
      rw [List.filter_cons_of_pos hf]
      cases hr : (rest.filter isOrigDst) with
      | nil => simp
      | cons y ys =>
        rw [List.getLast?_cons_cons]
        obtain ⟨z, hz⟩ : ∃ z, (y :: ys).getLast? = some z :=
          ⟨_, List.getLast?_eq_getLast _ (by simp)⟩
        simp [hz]
    | false =>
      cases h6 : isOrigDst6 m with
      | true =>
        rw [scan_step6 m rest addr h4 h6 (hm.2 h6), ih _ hrest]
        have hf : isOrigDst m = true := by simp [isOrigDst, h6]
        rw [List.filter_cons_of_pos hf]
        cases hr : (rest.filter isOrigDst) with
        | nil => simp
        | cons y ys =>
        rw [List.getLast?_cons_cons]
        obtain ⟨z, hz⟩ : ∃ z, (y :: ys).getLast? = some z :=
          ⟨_, List.getLast?_eq_getLast _ (by simp)⟩
        simp [hz]
      | false =>
        rw [scan_skip m rest addr h4 h6, ih _ hrest]
        have hf : ¬ (isOrigDst m = true) := by simp [isOrigDst, h4, h6]
        rw [List.filter_cons_of_neg hf]

/-! ## Auxiliary lemmas on the descriptor table -/

/-- Replacing a socket leaves the set of open descriptors as it is. -/
theorem openFds_update (k : Kernel) (fd : Nat) (s : Socket) :
    (k.update fd s).openFds = k.openFds := by
  unfold Kernel.update Kernel.openFds
  simp only [List.map_map]
  apply List.map_congr_left
  intro e _
  by_cases h : e.1 = fd <;> simp [h]

/-- The descriptor handed out next is not open yet. -/
theorem newFd_not_mem (k : Kernel) : k.newFd ∉ k.openFds := by
  unfold Kernel.newFd
  cases hf : (List.range (k.fds.length + 1)).find? (fun n => decide (n ∉ k.openFds)) with
  | some y =>
    have := List.find?_some hf
    simpa using this
  | none =>
    exfalso
    rw [List.find?_eq_none] at hf
    have hsub : List.range (k.fds.length + 1) ⊆ k.openFds := by
      intro x hx
      have := hf x hx
      simpa using this
    have hle := ((List.nodup_range _).subperm hsub).length_le
    simp [Kernel.openFds] at hle

/-- After replacing the socket of an open descriptor, the descriptor shows the new socket. -/
theorem lookup_update_self (k : Kernel) (fd : Nat) (s t : Socket)
    (h : k.lookup fd = some s) : (k.update fd t).lookup fd = some t := by
  obtain ⟨fds⟩ := k
  simp only [Kernel.lookup, Kernel.update] at h ⊢
  induction fds with
  | nil => simp at h
  | cons e rest ih =>
    by_cases he : e.1 = fd
    · simp [List.find?, he]
    · have hb : (e.1 == fd) = false := by simpa using he
      simp only [List.find?, hb, List.map_cons, he, if_false] at h ⊢
      exact ih h

/-- A successful `setsockopt` leaves the set of open descriptors as it is. -/
theorem sysSetsockoptInt_openFds (env : Env) (k k2 : Kernel) (fd level opt value : Nat)
    (h : sysSetsockoptInt env k fd level opt value = .ok k2) : k2.openFds = k.openFds := by
  unfold sysSetsockoptInt at h
  split at h
  · cases h
  · split at h
    · cases h
    · cases h; exact openFds_update _ _ _

/-- The function `SetSockOptTrn` never opens or closes a descriptor. -/
theorem SetSockOptTrn_openFds (env : Env) (k : Kernel) (fd : Nat) :
    (SetSockOptTrn env k fd).2.openFds = k.openFds := by
  unfold SetSockOptTrn
  split
  · rfl
  · split
    · rfl
    · split
      · rfl
      · rename_i k1 h1
        split
        · exact sysSetsockoptInt_openFds _ _ _ _ _ _ _ h1
        · rename_i k2 h2
          rw [sysSetsockoptInt_openFds _ _ _ _ _ _ _ h2,
            sysSetsockoptInt_openFds _ _ _ _ _ _ _ h1]

/-- A successful `bind` leaves the set of open descriptors as it is. -/
theorem sysBind_openFds (env : Env) (k k2 : Kernel) (fd : Nat) (sa : Sockaddr)
    (h : sysBind env k fd sa = .ok k2) : k2.openFds = k.openFds := by
  unfold sysBind at h
  split at h
  · cases h
  · split at h
    · cases h
    · cases h; exact openFds_update _ _ _

/-- A successful `connect` leaves the set of open descriptors as it is. -/
theorem sysConnect_openFds (env : Env) (k k2 : Kernel) (fd : Nat) (sa : Sockaddr)
    (h : sysConnect env k fd sa = .ok k2) : k2.openFds = k.openFds := by
  unfold sysConnect at h
  split at h
  · cases h
  · split at h
    · cases h
    · cases h; exact openFds_update _ _ _

/-- After a successful `setsockopt` the socket carries the new option value in front. -/
theorem sysSetsockoptInt_lookup (env : Env) (k k2 : Kernel) (fd level opt value : Nat)
    (s : Socket) (h : sysSetsockoptInt env k fd level opt value = .ok k2)
    (hs : k.lookup fd = some s) :
    k2.lookup fd = some { s with opts := ((level, opt), value) :: s.opts } := by
  unfold sysSetsockoptInt at h
  rw [hs] at h
  dsimp only at h
  split at h
  · cases h
  · cases h
    exact lookup_update_self k fd s _ hs

/-- Whenever `SetSockOptTrn` succeeds, the option it has written besides
`SO_REUSEADDR` is number 19 at level `SOL_SOCKET`; the option
`IP_TRANSPARENT` at level `SOL_IP` keeps the value it had. -/
theorem SetSockOptTrn_sol_ip_unchanged (env : Env) (k k2 : Kernel) (fd : Nat) (s : Socket)
    (h : SetSockOptTrn env k fd = (none, k2)) (hs : k.lookup fd = some s) :
    ∃ s2, k2.lookup fd = some s2 ∧
      s2.opt SOL_IP IP_TRANSPARENT = s.opt SOL_IP IP_TRANSPARENT ∧
      s2.opt SOL_SOCKET SO_REUSEADDR = 1 ∧ s2.opt SOL_SOCKET IP_TRANSPARENT = 1 := by
  unfold SetSockOptTrn at h
  split at h
  · cases h
  · split at h
    · cases h
    · split at h
      · cases h
      · rename_i k1 h1
        split at h
        · cases h
        · rename_i k3 h3
          cases h
          have l1 := sysSetsockoptInt_lookup _ _ _ _ _ _ _ s h1 hs
          have l2 := sysSetsockoptInt_lookup _ _ _ _ _ _ _ _ h3 l1
          exact ⟨_, l2, rfl, rfl, rfl⟩

/-! ## The UDP relay codec -/

/-- The output of `MarshalPackage` with `"udp"` on an address value whose
reflective reads succeed (a struct value with an unsigned `Port`). -/
theorem MarshalPackage_valueUint (id : Nat) (ip : List Nat) (p : Nat) (d : List Nat) :
    MarshalPackage ⟨⟨.ValueUint id, ip, p⟩, d⟩ "udp"
      = .ok (some ((match To4 ip with
          | some ip4 => [0, 0, 0, 1] ++ ip4
          | none =>
            match To16 ip with
            | some ip16 => [0, 0, 0, 1] ++ ip16
            | none => [0, 0, 0, 3] ++ ip) ++ BigEndianPutUint16 (p % 65536) ++ d)) := by
  simp [MarshalPackage, fieldIP, fieldPortUint]

/-- On every address value that is not a struct value with an unsigned `Port`
(every pointer, every type convertible to `net.UDPAddr`), `MarshalPackage`
panics, whatever the protocol string. -/
theorem MarshalPackage_panics (pkg : DataPackage) (proto : String)
    (h : ∀ id, pkg.Addr.typ ≠ .ValueUint id) :
    ∃ e, MarshalPackage pkg proto = .error e := by
  obtain ⟨⟨t, ip, p⟩, d⟩ := pkg
  cases t with
  | PtrUDPAddr => exact ⟨_, rfl⟩
  | PtrTCPAddr => exact ⟨_, rfl⟩
  | PtrOther id => exact ⟨_, rfl⟩
  | ValueInt id => exact ⟨_, rfl⟩
  | ValueUint id => exact absurd rfl (h id)

/-- The IPv4 round trip on an address value whose reflective reads succeed:
for a 4-byte address `a`, a port `p <= 65535` and a payload `d`, the encoding
decodes to address `a`, port `p` and payload `d`. -/
theorem roundTrip_valueUint (id : Nat) (a : List Nat) (p : Nat) (d spare : List Nat)
    (ha : a.length = 4) (hp : p ≤ 65535) :
    ∃ bytes, MarshalPackage ⟨⟨.ValueUint id, a, p⟩, d⟩ "udp" = .ok (some bytes) ∧
      UnMarshalPackage ⟨bytes, spare⟩ = .ok ⟨⟨.PtrUDPAddr, a, p⟩, d⟩ := by
  match a, ha with
  | [a0, a1, a2, a3], _ =>
    refine ⟨[0, 0, 0, 1] ++ [a0, a1, a2, a3] ++ BigEndianPutUint16 (p % 65536) ++ d, ?_, ?_⟩
    · simp [MarshalPackage_valueUint, To4]
    · have hport : p % 65536 / 256 % 256 * 256 + p % 65536 % 256 = p := by omega
      rw [UnMarshalPackage_ok _ (by simp [Slice.len, BigEndianPutUint16])]
      simp [BigEndianPutUint16, hport]

/-- The wire layout on an address value whose reflective reads succeed:
`[0, 0, 0, 1] ++ A ++ [p / 256, p mod 256] ++ d` with `A` the 4 bytes of an
IPv4 address or the 16 bytes of an IPv6 address. -/
theorem wireLayout_valueUint (id : Nat) (ip : List Nat) (p : Nat) (d : List Nat)
    (hp : p ≤ 65535) :
    (∀ A, To4 ip = some A →
      MarshalPackage ⟨⟨.ValueUint id, ip, p⟩, d⟩ "udp"
        = .ok (some ([0, 0, 0, 1] ++ A ++ [p / 256, p % 256] ++ d))) ∧
    (To4 ip = none → ip.length = 16 →
      MarshalPackage ⟨⟨.ValueUint id, ip, p⟩, d⟩ "udp"
        = .ok (some ([0, 0, 0, 1] ++ ip ++ [p / 256, p % 256] ++ d))) := by
  have h1 : p % 65536 / 256 % 256 = p / 256 := by omega
  have h2 : p % 65536 % 256 = p % 256 := by omega
  refine ⟨fun A hA => ?_, fun h4 h16 => ?_⟩
  · simp [MarshalPackage_valueUint, hA, BigEndianPutUint16, h1, h2]
  · simp [MarshalPackage_valueUint, h4, To16, h16, BigEndianPutUint16, h1, h2]

/-- The decoding of an encoded IPv6 datagram on an address value whose
reflective reads succeed: address `A[0..4]`, port `A[4] * 256 + A[5]`, payload
`A[6..16] ++ [p / 256, p mod 256] ++ d`. -/
theorem ipv6Decode_valueUint (id : Nat) (A : List Nat) (p : Nat) (d spare : List Nat)
    (hA : A.length = 16) (hm : To4 A = none) (hp : p ≤ 65535) :
    ∃ bytes pkg, MarshalPackage ⟨⟨.ValueUint id, A, p⟩, d⟩ "udp" = .ok (some bytes) ∧
      UnMarshalPackage ⟨bytes, spare⟩ = .ok pkg ∧
      pkg.Addr.IP = A.take 4 ∧
      pkg.Addr.Port = A.getD 4 0 * 256 + A.getD 5 0 ∧
      pkg.Data = A.drop 6 ++ [p / 256, p % 256] ++ d := by
  have hmar := (wireLayout_valueUint id A p d hp).2 hm hA
  match A, hA with
  | [a0, a1, a2, a3, a4, a5, a6, a7, a8, a9, a10, a11, a12, a13, a14, a15], _ =>
    refine ⟨_, _, hmar, UnMarshalPackage_ok _ (by simp [Slice.len]), ?_, ?_, ?_⟩ <;> simp

/-- C1 (the code at the failing input): for the datagram of 10.0.0.5:4444 with
payload `[1, 2, 3]` held in a `*net.UDPAddr`, `MarshalPackage` with `"udp"`
does not return bytes to decode: it panics in `FieldByName`.  The address is
of the very type that `UnMarshalPackage` hands back, so the datagram decoded
from the wire form of this endpoint cannot be encoded again either. -/
theorem C1_marshal_panics_on_udp_addr :
    MarshalPackage ⟨⟨.PtrUDPAddr, [10, 0, 0, 5], 4444⟩, [1, 2, 3]⟩ "udp"
      = .error .fieldByNameOnPtr ∧
    UnMarshalPackage (Slice.ofList [0, 0, 0, 1, 10, 0, 0, 5, 17, 92, 1, 2, 3])
      = .ok ⟨⟨.PtrUDPAddr, [10, 0, 0, 5], 4444⟩, [1, 2, 3]⟩ := by
  decide

/-- C2 (the code at the failing input): `MarshalPackage` with `"udp"` produces
no wire layout for the address values of the standard library.  For
203.0.113.9:443 in a `*net.UDPAddr` and for [2001:db8::1]:443 in a
`*net.TCPAddr` it panics in `FieldByName`; for a struct value convertible to
`net.UDPAddr` it panics in `Uint`, because `Port` is an `int`. -/
theorem C2_marshal_panics_before_layout :
    MarshalPackage ⟨⟨.PtrUDPAddr, [203, 0, 113, 9], 443⟩, []⟩ "udp"
      = .error .fieldByNameOnPtr ∧
    MarshalPackage
        ⟨⟨.PtrTCPAddr, [32, 1, 13, 184, 0, 0, 0, 0, 0, 0, 0, 0, 0, 0, 0, 1], 443⟩, []⟩ "udp"
      = .error .fieldByNameOnPtr ∧
    MarshalPackage ⟨⟨.ValueInt 0, [203, 0, 113, 9], 443⟩, []⟩ "udp" = .error .uintOnInt := by
  decide

/-- C3 (amended): `UnMarshalPackage` panics on truncated input.  It raises the
slice-bounds runtime panic, handing back neither a datagram nor an error
value, exactly on the byte sequences shorter than 10 bytes, and returns a
datagram exactly on those of 10 bytes or more. -/
theorem C3_truncated_input_panics (msg : Slice) :
    (UnMarshalPackage msg = .error .sliceBounds ↔ msg.len < 10) ∧
    ((∃ pkg, UnMarshalPackage msg = .ok pkg) ↔ 10 ≤ msg.len) := by
  by_cases h : 10 ≤ msg.len
  · have hok := UnMarshalPackage_ok msg h
    refine ⟨⟨fun he => ?_, fun hl => by omega⟩, ⟨fun _ => h, fun _ => ⟨_, hok⟩⟩⟩
    rw [hok] at he; cases he
  · have hs := UnMarshalPackage_short msg (by omega)
    refine ⟨⟨fun _ => by omega, fun _ => hs⟩, ⟨fun ⟨pkg, hp⟩ => ?_, fun hl => absurd hl h⟩⟩
    rw [hs] at hp; cases hp

/-- Witness of C3 (amended): three bytes panic, ten bytes are decoded. -/
theorem C3_truncated_input_panics_witness :
    UnMarshalPackage (Slice.ofList [0, 0, 0]) = .error .sliceBounds ∧
    ∃ pkg, UnMarshalPackage (Slice.ofList [0, 0, 0, 1, 10, 0, 0, 5, 17, 92]) = .ok pkg :=
  ⟨(C3_truncated_input_panics (Slice.ofList [0, 0, 0])).1.2 (by decide),
   (C3_truncated_input_panics (Slice.ofList [0, 0, 0, 1, 10, 0, 0, 5, 17, 92])).2.2
     (by decide)⟩

/-- Counterexample to C3 as stated: on the 9 bytes `[0,0,0,1,10,0,0,5,17]`
the call does not come back with a truncated-datagram error.  It does not come
back at all: `UnMarshalPackage` has the single result `DataPackage`, no error
result and no length check, and `msg[8:10]` raises a runtime panic. -/
theorem C3_counterexample :
    UnMarshalPackage (Slice.ofList [0, 0, 0, 1, 10, 0, 0, 5, 17]) = .error .sliceBounds ∧
    ¬ ∃ pkg, UnMarshalPackage (Slice.ofList [0, 0, 0, 1, 10, 0, 0, 5, 17]) = .ok pkg := by
  constructor
  · decide
  · rintro ⟨pkg, h⟩
    have : UnMarshalPackage (Slice.ofList [0, 0, 0, 1, 10, 0, 0, 5, 17])
        = .error .sliceBounds := by decide
    rw [this] at h
    cases h

/-- C10 (the code at the failing input): for [2001:db8::1]:80, a 16-byte
address that is not IPv4-mapped, held in a `*net.UDPAddr` with payload `[7]`,
`MarshalPackage` with `"udp"` panics in `FieldByName`, so nothing is encoded
and `UnMarshalPackage` is never reached. -/
theorem C10_marshal_panics_on_ipv6_udp_addr :
    To4 [32, 1, 13, 184, 0, 0, 0, 0, 0, 0, 0, 0, 0, 0, 0, 1] = none ∧
    MarshalPackage
        ⟨⟨.PtrUDPAddr, [32, 1, 13, 184, 0, 0, 0, 0, 0, 0, 0, 0, 0, 0, 0, 1], 80⟩, [7]⟩ "udp"
      = .error .fieldByNameOnPtr := by
  decide

/-! ## The original-destination resolver -/

/-- C4 (amended): last matching record wins.  For every buffer that parses
into control records in which every record with level `SOL_IP` or `SOL_IPV6`
and type `IP_RECVORIGDSTADDR` carries enough data for the bytes read (8 for
`SOL_IP`, 24 for `SOL_IPV6`) and at least one such record exists,
`ParseRemoteAddrFromMsgHdr` succeeds with a `nil` error and returns the
endpoint of the last such record in buffer order: address at data bytes 4..8
(8..24 for `SOL_IPV6`), port the big-endian value of data bytes 2..4. -/
theorem C4_last_match_wins (buf : Slice) (msgs : List SocketControlMessage)
    (hparse : ParseSocketControlMessage buf = .ok msgs)
    (hlong : ∀ m ∈ msgs, (isOrigDst4 m = true → 8 ≤ m.Data.len) ∧
      (isOrigDst6 m = true → 24 ≤ m.Data.len))
    (hex : ∃ m ∈ msgs, isOrigDst m = true) :
    ∃ m, (msgs.filter isOrigDst).getLast? = some m ∧
      ParseRemoteAddrFromMsgHdr (some buf) = .ok (some (origDstOf m), none) := by
  obtain ⟨x, hx, hxm⟩ := hex
  have hne : msgs.filter isOrigDst ≠ [] :=
    List.ne_nil_of_mem (List.mem_filter.mpr ⟨hx, hxm⟩)
  refine ⟨(msgs.filter isOrigDst).getLast hne, List.getLast?_eq_getLast _ hne, ?_⟩
  simp only [ParseRemoteAddrFromMsgHdr, hparse, scanMsgs_last msgs none hlong,
    List.getLast?_eq_getLast _ hne, bind, Except.bind]
  simp [pure, Except.pure]

/-- Witness of C4 (amended): one record for 203.0.113.9:443 resolves to that
endpoint, and when a second record for 198.51.100.7:53 follows, the second
one is returned. -/
theorem C4_last_match_wins_witness :
    ParseRemoteAddrFromMsgHdr (some (Slice.ofList sampleRecord))
      = .ok (some ⟨[203, 0, 113, 9], 443⟩, none) ∧
    ParseRemoteAddrFromMsgHdr (some (Slice.ofList (sampleRecord ++ secondRecord)))
      = .ok (some ⟨[198, 51, 100, 7], 53⟩, none) := by
  constructor
  · obtain ⟨m, hm, hres⟩ := C4_last_match_wins (Slice.ofList sampleRecord)
      [⟨⟨32, 0, 20⟩, ⟨[2, 0, 1, 187, 203, 0, 113, 9, 0, 0, 0, 0, 0, 0, 0, 0], []⟩⟩]
      (by decide) (by decide) (by decide)
    have hm2 : m = ⟨⟨32, 0, 20⟩, ⟨[2, 0, 1, 187, 203, 0, 113, 9, 0, 0, 0, 0, 0, 0, 0, 0], []⟩⟩ :=
      (Option.some.inj hm).symm
    rw [hres, hm2]
    decide
  · obtain ⟨m, hm, hres⟩ := C4_last_match_wins (Slice.ofList (sampleRecord ++ secondRecord))
      [⟨⟨32, 0, 20⟩, ⟨[2, 0, 1, 187, 203, 0, 113, 9, 0, 0, 0, 0, 0, 0, 0, 0], secondRecord⟩⟩,
       ⟨⟨32, 0, 20⟩, ⟨[2, 0, 0, 53, 198, 51, 100, 7, 0, 0, 0, 0, 0, 0, 0, 0], []⟩⟩]
      (by decide) (by decide) (by decide)
    have hm2 : m = ⟨⟨32, 0, 20⟩, ⟨[2, 0, 0, 53, 198, 51, 100, 7, 0, 0, 0, 0, 0, 0, 0, 0], []⟩⟩ :=
      (Option.some.inj hm).symm
    rw [hres, hm2]
    decide

/-- Counterexample to C4 as stated: the buffer holds a full original-destination
record for 203.0.113.9:443 (16 bytes of data) followed by a record of the same
level and type with 3 bytes of data and no spare capacity; the call does not
succeed with the endpoint of the first record, it panics on `msg.Data[4:8]`. -/
theorem C4_counterexample :
    ∃ m1 m2,
      ParseSocketControlMessage (Slice.ofList (sampleRecord ++ shortRecord)) = .ok [m1, m2] ∧
      isOrigDst4 m1 = true ∧ m1.Data.len = 16 ∧ origDstOf m1 = ⟨[203, 0, 113, 9], 443⟩ ∧
      isOrigDst4 m2 = true ∧ m2.Data.len = 3 ∧ m2.Data.cap = 3 ∧
      ParseRemoteAddrFromMsgHdr (some (Slice.ofList (sampleRecord ++ shortRecord)))
        = .error .sliceBounds :=
  ⟨⟨⟨32, 0, 20⟩, ⟨[2, 0, 1, 187, 203, 0, 113, 9, 0, 0, 0, 0, 0, 0, 0, 0], shortRecord⟩⟩,
   ⟨⟨19, 0, 20⟩, ⟨[2, 0, 1], []⟩⟩, by decide⟩

/-- C5: no matching record is an error.  When the buffer parses into control
records none of which has level `SOL_IP` or `SOL_IPV6` with type
`IP_RECVORIGDSTADDR` (zero records included), `ParseRemoteAddrFromMsgHdr`
returns no endpoint together with the origin-not-found error; and whenever it
returns an endpoint, the buffer parsed and some record matched. -/
theorem C5_no_match_is_error (buf : Option Slice) :
    (∀ b msgs, buf = some b → ParseSocketControlMessage b = .ok msgs →
      (∀ m ∈ msgs, isOrigDst m = false) →
      ParseRemoteAddrFromMsgHdr buf = .ok (none, some .originNotFound)) ∧
    (∀ a e, ParseRemoteAddrFromMsgHdr buf = .ok (some a, e) →
      ∃ b msgs, buf = some b ∧ ParseSocketControlMessage b = .ok msgs ∧
        ∃ m ∈ msgs, isOrigDst m = true) := by
  have key : ∀ (msgs : List SocketControlMessage) (addr : Option BaseAddr),
      (∀ m ∈ msgs, isOrigDst m = false) → scanMsgs msgs addr = .ok addr := by
    intro msgs addr hn
    have hlong : ∀ m ∈ msgs, (isOrigDst4 m = true → 8 ≤ m.Data.len) ∧
        (isOrigDst6 m = true → 24 ≤ m.Data.len) := by
      intro m hm
      have := hn m hm
      simp only [isOrigDst, Bool.or_eq_false_iff] at this
      exact ⟨fun h => by simp [this.1] at h, fun h => by simp [this.2] at h⟩
    rw [scanMsgs_last msgs addr hlong]
    have : msgs.filter isOrigDst = [] := by
      rw [List.filter_eq_nil_iff]
      intro m hm; simp [hn m hm]
    simp [this]
  have main : ∀ b msgs, buf = some b → ParseSocketControlMessage b = .ok msgs →
      (∀ m ∈ msgs, isOrigDst m = false) →
      ParseRemoteAddrFromMsgHdr buf = .ok (none, some .originNotFound) := by
    intro b msgs hb hp hn
    subst hb
    simp only [ParseRemoteAddrFromMsgHdr, hp, key msgs none hn, bind, Except.bind]
    simp [pure, Except.pure]
  refine ⟨main, ?_⟩
  intro a e hres
  cases buf with
  | none => simp [ParseRemoteAddrFromMsgHdr] at hres
  | some b =>
    cases hp : ParseSocketControlMessage b with
    | error err => simp [ParseRemoteAddrFromMsgHdr, hp] at hres
    | ok msgs =>
      refine ⟨b, msgs, rfl, hp, ?_⟩
      by_contra hcon
      have hn : ∀ m ∈ msgs, isOrigDst m = false := by
        intro m hm
        cases hmm : isOrigDst m with
        | false => rfl
        | true => exact absurd ⟨m, hm, hmm⟩ hcon
      rw [main b msgs rfl hp hn] at hres
      simp at hres

/-- Witness of C5: the empty buffer, and a buffer with one timestamp record. -/
theorem C5_no_match_is_error_witness :
    ParseRemoteAddrFromMsgHdr (some (Slice.ofList [])) = .ok (none, some .originNotFound) ∧
    ParseRemoteAddrFromMsgHdr (some (Slice.ofList otherRecord))
      = .ok (none, some .originNotFound) :=
  ⟨(C5_no_match_is_error (some (Slice.ofList []))).1 (Slice.ofList []) [] rfl (by decide)
      (by decide),
   (C5_no_match_is_error (some (Slice.ofList otherRecord))).1 (Slice.ofList otherRecord)
      [⟨⟨32, 1, 29⟩, ⟨[1, 2, 3, 4, 5, 6, 7, 8, 9, 10, 11, 12, 13, 14, 15, 16], []⟩⟩]
      rfl (by decide) (by decide)⟩

/-! ## The dialer and the socket configurator -/

/-- C6 (amended): `MegaDial` rejects mixed address types before opening
anything.  For every protocol string and every local and remote address whose
dynamic types differ, it fails with the mismatch error and leaves the kernel
state, hence the set of open descriptors, exactly as it was. -/
theorem C6_type_mismatch_rejected (env : Env) (k : Kernel) (network : String)
    (lAddr rAddr : Addr) (hty : lAddr.typ ≠ rAddr.typ) :
    MegaDial env k network lAddr rAddr = .ok (.error .dialMismatch, k) := by
  simp [MegaDial, hty]

/-- Witness of C6 (amended): a `*net.UDPAddr` with an IPv4 address as the
local address and a `*net.TCPAddr` with an IPv6 address as the remote one. -/
theorem C6_type_mismatch_rejected_witness :
    MegaDial Env.linux ⟨[]⟩ "udp" ⟨.PtrUDPAddr, [10, 0, 0, 5], 4444⟩
      ⟨.PtrTCPAddr, [32, 1, 13, 184, 0, 0, 0, 0, 0, 0, 0, 0, 0, 0, 0, 1], 80⟩
      = .ok (.error .dialMismatch, ⟨[]⟩) :=
  C6_type_mismatch_rejected Env.linux ⟨[]⟩ "udp" ⟨.PtrUDPAddr, [10, 0, 0, 5], 4444⟩
    ⟨.PtrTCPAddr, [32, 1, 13, 184, 0, 0, 0, 0, 0, 0, 0, 0, 0, 0, 0, 1], 80⟩ (by decide)

/-- Counterexample to C6 as stated: local 10.0.0.5:4444 (IPv4) and remote
[2001:db8::1]:80 (IPv6), both of one address type.  `MegaDial` does not fail
with the mismatch error.  With a struct value type it creates an `AF_INET`
socket, fails in `SetSockOptTrn` with `ENOPROTOOPT`, and descriptor 0 is open
afterwards although none was before; with two `*net.TCPAddr` it panics. -/
theorem C6_counterexample :
    To4 [10, 0, 0, 5] = some [10, 0, 0, 5] ∧
    To4 [32, 1, 13, 184, 0, 0, 0, 0, 0, 0, 0, 0, 0, 0, 0, 1] = none ∧
    (∃ k2, MegaDial Env.linux ⟨[]⟩ "tcp" ⟨.ValueInt 0, [10, 0, 0, 5], 4444⟩
        ⟨.ValueInt 0, [32, 1, 13, 184, 0, 0, 0, 0, 0, 0, 0, 0, 0, 0, 0, 1], 80⟩
        = .ok (.error (.errno ENOPROTOOPT), k2) ∧
      k2.openFds = [0] ∧ (Kernel.mk []).openFds = []) ∧
    MegaDial Env.linux ⟨[]⟩ "tcp" ⟨.PtrTCPAddr, [10, 0, 0, 5], 4444⟩
        ⟨.PtrTCPAddr, [32, 1, 13, 184, 0, 0, 0, 0, 0, 0, 0, 0, 0, 0, 0, 1], 80⟩
      = .error .fieldByNameOnPtr :=
  ⟨by decide, by decide,
   ⟨⟨[(0, ⟨AF_INET, SOCK_STREAM, [((SOL_SOCKET, SO_REUSEADDR), 1)], none, none⟩)]⟩,
    by decide⟩,
   by decide⟩

/-- Counterexample to C7 as stated: dialing 93.184.216.34:80 from
10.0.0.5:4444, the socket is opened, configuring it fails with `ENOPROTOOPT`,
and `MegaDial` returns the error with descriptor 0 still open, although no
descriptor was open before the call. -/
theorem C7_counterexample :
    ∃ k2, MegaDial Env.linux ⟨[]⟩ "tcp" ⟨.ValueInt 0, [10, 0, 0, 5], 4444⟩
        ⟨.ValueInt 0, [93, 184, 216, 34], 80⟩ = .ok (.error (.errno ENOPROTOOPT), k2) ∧
      k2.openFds = [0] ∧ (Kernel.mk []).openFds = [] :=
  ⟨⟨[(0, ⟨AF_INET, SOCK_STREAM, [((SOL_SOCKET, SO_REUSEADDR), 1)], none, none⟩)]⟩,
   by decide⟩

/-- C7 (amended): `MegaDial` does not close its socket on failure.  Whenever
the address types agree, the local address has a family and `socket` goes
through, every `MegaDial` that returns an error returns with the new
descriptor still open: the open descriptors afterwards are those before the
call followed by the new one, which was not open before. -/
theorem C7_failure_keeps_socket_open (env : Env) (k k2 : Kernel) (network : String)
    (lAddr rAddr : Addr) (domain : Nat) (e : Err)
    (hty : lAddr.typ = rAddr.typ) (hdom : dialDomain lAddr.IP = some domain)
    (hsock : env.socketErr k domain (dialTyp network) 0 = none)
    (hfail : MegaDial env k network lAddr rAddr = .ok (.error e, k2)) :
    k2.openFds = k.openFds ++ [k.newFd] ∧ k.newFd ∉ k.openFds := by
  refine ⟨?_, newFd_not_mem k⟩
  have hss := SetSockOptTrn_openFds env
    ⟨k.fds ++ [(k.newFd, ⟨domain, dialTyp network, [], none, none⟩)]⟩ k.newFd
  have h1 : (Kernel.mk (k.fds ++ [(k.newFd, ⟨domain, dialTyp network, [], none, none⟩)])).openFds
      = k.openFds ++ [k.newFd] := by simp [Kernel.openFds]
  rw [h1] at hss
  have hip : ∀ ip, fieldIP lAddr = .ok ip → ip = lAddr.IP := by
    intro ip h
    unfold fieldIP at h
    split at h <;> first | (cases h; rfl) | cases h
  unfold MegaDial at hfail
  simp only [hty, ne_eq, not_true_eq_false, if_false] at hfail
  split at hfail
  · cases hfail
  · rename_i ip hr
    rw [hip ip hr, hdom] at hfail
    simp only [sysSocket, hsock] at hfail
    split at hfail
    · rename_i heq
      rw [heq] at hss
      cases hfail; exact hss
    · rename_i k3 heq
      rw [heq] at hss
      split at hfail
      · cases hfail
      · cases hfail; exact hss
      · split at hfail
        · cases hfail
        · cases hfail; exact hss
        · split at hfail
          · cases hfail; exact hss
          · rename_i k4 hb
            have h3 := sysBind_openFds _ _ _ _ _ hb
            split at hfail
            · cases hfail; rw [h3]; exact hss
            · rename_i k5 hc
              have h4 := sysConnect_openFds _ _ _ _ _ hc
              split at hfail
              · cases hfail; rw [h4, h3]; exact hss
              · cases hfail

/-- Witness of C7 (amended): the dial of 93.184.216.34:80 from 10.0.0.5:4444,
which fails in `SetSockOptTrn`. -/
theorem C7_failure_keeps_socket_open_witness :
    (Kernel.mk [(0, ⟨AF_INET, SOCK_STREAM, [((SOL_SOCKET, SO_REUSEADDR), 1)], none,
        none⟩)]).openFds = (Kernel.mk []).openFds ++ [(Kernel.mk []).newFd] ∧
      (Kernel.mk []).newFd ∉ (Kernel.mk []).openFds :=
  C7_failure_keeps_socket_open Env.linux ⟨[]⟩
    ⟨[(0, ⟨AF_INET, SOCK_STREAM, [((SOL_SOCKET, SO_REUSEADDR), 1)], none, none⟩)]⟩ "tcp"
    ⟨.ValueInt 0, [10, 0, 0, 5], 4444⟩ ⟨.ValueInt 0, [93, 184, 216, 34], 80⟩ AF_INET
    (.errno ENOPROTOOPT) (by decide) (by decide) rfl (by decide)

/-- The conversion never panics: the guard lets through only the types on
which both reflective reads succeed. -/
theorem convertAddrToSockAddr_returns (addr : Addr) :
    ∃ r, convertAddrToSockAddr addr = .ok r := by
  obtain ⟨t, ip, p⟩ := addr
  cases t with
  | ValueInt id =>
    simp only [convertAddrToSockAddr, convertibleToAddr, fieldIP, fieldPortInt]
    simp only [Bool.true_eq_false, if_false]
    split
    · exact ⟨_, rfl⟩
    · split <;> exact ⟨_, rfl⟩
  | _ => exact ⟨_, rfl⟩

/-- The port substitution on the address values that pass the guard (struct
values convertible to `net.UDPAddr`): an IPv4 address gives the
`SockaddrInet4` of its four bytes, a 16-byte address that is not IPv4-mapped
the `SockaddrInet6` of its bytes, with port 80 for port 0 and the port itself
otherwise. -/
theorem convertAddrToSockAddr_valueInt (id : Nat) (ip : List Nat) (p : Nat) :
    (∀ a, To4 ip = some a →
      convertAddrToSockAddr ⟨.ValueInt id, ip, p⟩
        = .ok (.ok (.Inet4 (if p = 0 then 80 else p) a))) ∧
    (To4 ip = none → ip.length = 16 →
      convertAddrToSockAddr ⟨.ValueInt id, ip, p⟩
        = .ok (.ok (.Inet6 (if p = 0 then 80 else p) ip))) := by
  constructor
  · intro a ha
    have hlen : a.length = 4 := by
      unfold To4 at ha
      split at ha
      · cases ha; assumption
      · split at ha
        · rename_i h; cases ha; simp [List.length_take, List.length_drop, h.1]
        · cases ha
    have hcp : copyInto 4 a = a := by
      simp [copyInto, hlen, List.take_of_length_le]
    simp [convertAddrToSockAddr, convertibleToAddr, fieldIP, fieldPortInt, ha, hcp]
  · intro hn h16
    have hcp : copyInto 16 ip = ip := by
      simp [copyInto, h16, List.take_of_length_le]
    have h16b : To16 ip = some ip := by simp [To16, h16]
    simp [convertAddrToSockAddr, convertibleToAddr, fieldIP, fieldPortInt, hn, h16b, hcp]

/-- C8 (the code at the failing input): for 10.0.0.5:0 held in a
`*net.TCPAddr` or a `*net.UDPAddr`, `convertAddrToSockAddr` does not succeed
with 10.0.0.5:80: its guard returns the error "addr typ is not tcp addr or udp
addr".  `MegaDial` from the `*net.TCPAddr` 10.0.0.5:0 to 93.184.216.34:80
binds nothing: it panics in `FieldByName` before a socket exists. -/
theorem C8_convert_rejects_tcp_addr :
    convertAddrToSockAddr ⟨.PtrTCPAddr, [10, 0, 0, 5], 0⟩ = .ok (.error .addrTypeMismatch) ∧
    convertAddrToSockAddr ⟨.PtrUDPAddr, [10, 0, 0, 5], 0⟩ = .ok (.error .addrTypeMismatch) ∧
    MegaDial Env.linux ⟨[]⟩ "tcp" ⟨.PtrTCPAddr, [10, 0, 0, 5], 0⟩
        ⟨.PtrTCPAddr, [93, 184, 216, 34], 80⟩ = .error .fieldByNameOnPtr := by
  decide

/-- C9 (the code at the failing input): under Linux `SetSockOptTrn` returns an
error on every descriptor in every state.  On descriptor 3, a fresh `AF_INET`
stream socket, it returns `ENOPROTOOPT` from its second `setsockopt`, whose
level is `SOL_SOCKET`; `SO_REUSEADDR` then reads 1 and `IP_TRANSPARENT` at
level `SOL_IP` still reads 0. -/
theorem C9_setsockopt_wrong_level :
    (∀ k fd, (SetSockOptTrn Env.linux k fd).1 ≠ none) ∧
    ∃ k2 s, SetSockOptTrn Env.linux ⟨[(3, ⟨AF_INET, SOCK_STREAM, [], none, none⟩)]⟩ 3
        = (some (.errno ENOPROTOOPT), k2) ∧
      k2.lookup 3 = some s ∧
      s.opt SOL_SOCKET SO_REUSEADDR = 1 ∧
      s.opt SOL_IP IP_TRANSPARENT = 0 := by
  constructor
  · intro k fd
    unfold SetSockOptTrn
    split
    · simp
    · split
      · simp
      · split
        · simp
        · rename_i k1 h1
          split
          · simp
          · rename_i k2 h2
            exfalso
            unfold sysSetsockoptInt at h2
            split at h2
            · cases h2
            · simp [Env.linux, SOL_SOCKET, IP_TRANSPARENT] at h2
  · exact ⟨⟨[(3, ⟨AF_INET, SOCK_STREAM, [((SOL_SOCKET, SO_REUSEADDR), 1)], none, none⟩)]⟩,
      ⟨AF_INET, SOCK_STREAM, [((SOL_SOCKET, SO_REUSEADDR), 1)], none, none⟩, by decide⟩

end Com
